import Mathlib

/-!
Verification development for the Apple Notes content decoder
(`apple-notes/scripts/export_notes.py`): the binary content extractor
(`read_varint`, `extract_text_from_protobuf`), the fallback regex extractor
and dispatcher (`decode_note_content`), and the markdown reconstructor
(`format_as_markdown`).

Modelling conventions:
* A byte buffer is a `List Nat` of byte values; a decoded text string is a
  `List Nat` of Unicode code points.
* Python library functions used by the source are given explicit models:
  strict and permissive UTF-8 decoding (`utf8Decode`, `utf8DecodeIgnore`),
  `str.strip` (`pyStrip`), `str.isprintable` (`pyPrintable`, exact on the
  Latin-1 range and on the common separator code points; every string these
  developments evaluate on is ASCII), `str.isalnum` and `str.isalpha`
  (exact on ASCII, the only characters the fallback's runs can contain).
* `gzip.decompress` is an abstract parameter `gunzip`; a raised exception is
  modelled as `none`.  The text of the exception interpolated at
  `"[Could not decode: {e}]"` is likewise an abstract parameter.
* Each `while` loop over a position cursor is embedded as structural
  recursion on a fuel argument initialised to `data.length - pos`; because
  every iteration advances the cursor by at least one byte, this fuel is
  exhausted only when the cursor has passed the end of the buffer, where the
  fuel-zero value coincides with the loop-exit value, so the fuelled
  function computes exactly the loop.
* Floating-point ratio comparisons (`ratio < 0.6` etc.) are embedded as the
  equivalent cross-multiplied integer comparisons; for the string lengths
  arising here the double-precision comparison agrees with the rational one.
-/

/-- Whitespace test used to model Python `str.strip` / `str.lstrip` and the
regex class `\s` over `str`: ASCII whitespace, the C0 separator controls,
NEL, NBSP and the Unicode space separators. -/
def pyIsSpaceB (c : Nat) : Bool :=
  decide ((9 ≤ c ∧ c ≤ 13) ∨ c = 32 ∨ (28 ≤ c ∧ c ≤ 31) ∨ c = 133 ∨ c = 160 ∨
    c = 5760 ∨ (8192 ≤ c ∧ c ≤ 8202) ∨ c = 8232 ∨ c = 8233 ∨ c = 8239 ∨
    c = 8287 ∨ c = 12288)

/-- Model of Python `str.strip()`: drop leading and trailing whitespace. -/
def pyStrip (l : List Nat) : List Nat :=
  ((l.dropWhile pyIsSpaceB).reverse.dropWhile pyIsSpaceB).reverse

/-- Model of the character test behind Python `str.isprintable`: a code
point is non-printable when it is a control, a format control from Latin-1,
or a separator.  Exact on Latin-1 and on the Unicode space/line/paragraph
separators; all strings evaluated in this development are ASCII, where the
model is exact. -/
def pyPrintable (c : Nat) : Bool :=
  decide (¬(c < 32 ∨ c = 127 ∨ (128 ≤ c ∧ c ≤ 159) ∨ c = 160 ∨ c = 173 ∨
    c = 5760 ∨ (8192 ≤ c ∧ c ≤ 8202) ∨ c = 8232 ∨ c = 8233 ∨ c = 8239 ∨
    c = 8287 ∨ c = 12288))

/-- Continuation byte test for UTF-8 decoding: `0x80 ≤ b ≤ 0xBF`. -/
def contOk (b : Nat) : Bool := decide (128 ≤ b ∧ b ≤ 191)

/-- Valid first-continuation ranges for a three-byte UTF-8 lead, per the
strict decoder (excludes overlong forms after `0xE0` and surrogates after
`0xED`). -/
def cont3Ok (b b1 : Nat) : Bool :=
  if b = 224 then decide (160 ≤ b1 ∧ b1 ≤ 191)
  else if b = 237 then decide (128 ≤ b1 ∧ b1 ≤ 159)
  else contOk b1

/-- Valid first-continuation ranges for a four-byte UTF-8 lead, per the
strict decoder (excludes overlong forms after `0xF0` and code points above
`U+10FFFF` after `0xF4`). -/
def cont4Ok (b b1 : Nat) : Bool :=
  if b = 240 then decide (144 ≤ b1 ∧ b1 ≤ 191)
  else if b = 244 then decide (128 ≤ b1 ∧ b1 ≤ 143)
  else contOk b1

/-- Model of Python `bytes.decode("utf-8")` (strict): decode to the list of
code points, or fail on any invalid, overlong, surrogate or truncated
sequence. -/
def utf8Decode : List Nat → Option (List Nat)
  | [] => some []
  | b :: rest =>
    if b ≤ 127 then (utf8Decode rest).map (fun t => b :: t)
    else if 194 ≤ b ∧ b ≤ 223 then
      match rest with
      | b1 :: r =>
        if contOk b1 then
          (utf8Decode r).map (fun t => ((b - 192) * 64 + (b1 - 128)) :: t)
        else none
      | [] => none
    else if 224 ≤ b ∧ b ≤ 239 then
      match rest with
      | b1 :: b2 :: r =>
        if cont3Ok b b1 ∧ contOk b2 then
          (utf8Decode r).map
            (fun t => ((b - 224) * 4096 + (b1 - 128) * 64 + (b2 - 128)) :: t)
        else none
      | _ => none
    else if 240 ≤ b ∧ b ≤ 244 then
      match rest with
      | b1 :: b2 :: b3 :: r =>
        if cont4Ok b b1 ∧ contOk b2 ∧ contOk b3 then
          (utf8Decode r).map (fun t =>
            ((b - 240) * 262144 + (b1 - 128) * 4096 + (b2 - 128) * 64 +
              (b3 - 128)) :: t)
        else none
      | _ => none
    else none

/-- Model of Python `bytes.decode("utf-8", errors="ignore")`: decode to the
list of code points, skipping each maximal invalid subpart. -/
def utf8DecodeIgnore : List Nat → List Nat
  | [] => []
  | b :: rest =>
    if b ≤ 127 then b :: utf8DecodeIgnore rest
    else if 194 ≤ b ∧ b ≤ 223 then
      match rest with
      | b1 :: r =>
        if contOk b1 then ((b - 192) * 64 + (b1 - 128)) :: utf8DecodeIgnore r
        else utf8DecodeIgnore (b1 :: r)
      | [] => []
    else if 224 ≤ b ∧ b ≤ 239 then
      match rest with
      | b1 :: b2 :: r =>
        if cont3Ok b b1 then
          if contOk b2 then
            ((b - 224) * 4096 + (b1 - 128) * 64 + (b2 - 128)) ::
              utf8DecodeIgnore r
          else utf8DecodeIgnore (b2 :: r)
        else utf8DecodeIgnore (b1 :: b2 :: r)
      | [b1] => if cont3Ok b b1 then [] else utf8DecodeIgnore [b1]
      | [] => []
    else if 240 ≤ b ∧ b ≤ 244 then
      match rest with
      | b1 :: b2 :: b3 :: r =>
        if cont4Ok b b1 then
          if contOk b2 then
            if contOk b3 then
              ((b - 240) * 262144 + (b1 - 128) * 4096 + (b2 - 128) * 64 +
                (b3 - 128)) :: utf8DecodeIgnore r
            else utf8DecodeIgnore (b3 :: r)
          else utf8DecodeIgnore (b2 :: b3 :: r)
        else utf8DecodeIgnore (b1 :: b2 :: b3 :: r)
      | [b1, b2] =>
        if cont4Ok b b1 then
          if contOk b2 then [] else utf8DecodeIgnore [b2]
        else utf8DecodeIgnore [b1, b2]
      | [b1] => if cont4Ok b b1 then [] else utf8DecodeIgnore [b1]
      | [] => []
    else utf8DecodeIgnore rest

/-- Loop body of `read_varint` (source lines 15-26): accumulate the low 7
bits of each byte, least significant first, while the high bit is set.  The
fuel argument is the number of bytes left from the cursor to the end of the
buffer; when it is zero the cursor has passed the end and the returned value
coincides with the loop-exit value. -/
def readVarintAux (data : List Nat) : Nat → Nat → Nat → Nat → Nat × Nat
  | 0, pos, result, _ => (result, pos)
  | fuel + 1, pos, result, shift =>
    if pos < data.length then
      let b := data.getD pos 0
      if b &&& 128 = 0 then (result ||| ((b &&& 127) <<< shift), pos + 1)
      else readVarintAux data fuel (pos + 1)
        (result ||| ((b &&& 127) <<< shift)) (shift + 7)
    else (result, pos)

/-- Model of `read_varint(data, pos)`: returns `(result, new_pos)`. -/
def read_varint (data : List Nat) (pos : Nat) : Nat × Nat :=
  readVarintAux data (data.length - pos) pos 0 0

/-- Acceptance test on a decoded innermost candidate string, translating
source line 99 with Python operator precedence:
`(len(decoded) > 10 and decoded.isprintable()) or ("\n" in decoded)`. -/
def acceptText (d : List Nat) : Bool :=
  (decide (d.length > 10) && d.all pyPrintable) || d.contains 10

/-- Innermost field walk of `extract_text_from_protobuf` (source lines
82-105): scan the text-content block for a length-delimited field 2 whose
payload decodes as UTF-8 and passes `acceptText`.  Wire types other than 0
and 2 abort the walk.  An accepted candidate is provably nonempty (it
contains a newline or has length over 10), so Python's truthiness break is
the `some` case. -/
def scanTextBlockAux (data : List Nat) : Nat → Nat → Option (List Nat)
  | 0, _ => none
  | fuel + 1, pos =>
    if pos < data.length then
      let r1 := read_varint data pos
      let wire := r1.1 &&& 7
      if wire = 0 then scanTextBlockAux data fuel (read_varint data r1.2).2
      else if wire = 2 then
        let r2 := read_varint data r1.2
        let value := (data.drop r2.2).take r2.1
        let p3 := r2.2 + r2.1
        if r1.1 >>> 3 = 2 then
          match utf8Decode value with
          | some d =>
            if acceptText d then some d else scanTextBlockAux data fuel p3
          | none => scanTextBlockAux data fuel p3
        else scanTextBlockAux data fuel p3
      else none
    else none

/-- The innermost field walk, entered at position `pos`. -/
def scanTextBlock (data : List Nat) (pos : Nat) : Option (List Nat) :=
  scanTextBlockAux data (data.length - pos) pos

/-- Middle field walk of `extract_text_from_protobuf` (source lines 66-110):
recurse into length-delimited field 3 payloads longer than 50 bytes; wire
types other than 0 and 2 abort the walk. -/
def scanDocumentAux (data : List Nat) : Nat → Nat → Option (List Nat)
  | 0, _ => none
  | fuel + 1, pos =>
    if pos < data.length then
      let r1 := read_varint data pos
      let wire := r1.1 &&& 7
      if wire = 0 then scanDocumentAux data fuel (read_varint data r1.2).2
      else if wire = 2 then
        let r2 := read_varint data r1.2
        let value := (data.drop r2.2).take r2.1
        let p3 := r2.2 + r2.1
        if r1.1 >>> 3 = 3 ∧ value.length > 50 then
          match scanTextBlock value 0 with
          | some t => some t
          | none => scanDocumentAux data fuel p3
        else scanDocumentAux data fuel p3
      else none
    else none

/-- The middle field walk, entered at position `pos`. -/
def scanDocument (data : List Nat) (pos : Nat) : Option (List Nat) :=
  scanDocumentAux data (data.length - pos) pos

/-- Outer field walk of `extract_text_from_protobuf` (source lines 46-119):
recurse into length-delimited field 2 payloads longer than 100 bytes; wire
type 5 skips 4 bytes, wire type 1 skips 8 bytes, any other wire type aborts
the walk. -/
def scanOuterAux (data : List Nat) : Nat → Nat → Option (List Nat)
  | 0, _ => none
  | fuel + 1, pos =>
    if pos < data.length then
      let r1 := read_varint data pos
      let wire := r1.1 &&& 7
      if wire = 0 then scanOuterAux data fuel (read_varint data r1.2).2
      else if wire = 2 then
        let r2 := read_varint data r1.2
        let value := (data.drop r2.2).take r2.1
        let p3 := r2.2 + r2.1
        if r1.1 >>> 3 = 2 ∧ value.length > 100 then
          match scanDocument value 0 with
          | some t => some t
          | none => scanOuterAux data fuel p3
        else scanOuterAux data fuel p3
      else if wire = 5 then scanOuterAux data fuel (r1.2 + 4)
      else if wire = 1 then scanOuterAux data fuel (r1.2 + 8)
      else none
    else none

/-- The outer field walk, entered at position `pos`. -/
def scanOuter (data : List Nat) (pos : Nat) : Option (List Nat) :=
  scanOuterAux data (data.length - pos) pos

/-- Model of `extract_text_from_protobuf(data)` (source lines 29-123),
parameterised by the abstract decompressor `gunzip`; a decompression failure
raises, is caught by the surrounding handler and yields `None`.  No other
statement in the walk can raise. -/
def extract_text_from_protobuf (gunzip : List Nat → Option (List Nat)) :
    Option (List Nat) → Option (List Nat)
  | none => none
  | some data =>
    if data.length ≥ 2 ∧ data.take 2 = [31, 139] then
      match gunzip data with
      | some d => scanOuter d 0
      | none => none
    else scanOuter data 0

/-- Character class of the fallback's run regex `[\x20-\x7E\n\r\t]+`
(source line 145). -/
def isReadable (c : Nat) : Bool := decide ((32 ≤ c ∧ c ≤ 126) ∨ c = 10 ∨ c = 13 ∨ c = 9)

/-- Accumulator loop for `re.findall(r"[\x20-\x7E\n\r\t]+", decoded)`:
collect the maximal runs of readable characters, in order. -/
def findRunsAux : List Nat → List Nat → List (List Nat)
  | cur, [] => if cur = [] then [] else [cur.reverse]
  | cur, c :: rest =>
    if isReadable c then findRunsAux (c :: cur) rest
    else if cur = [] then findRunsAux [] rest
    else cur.reverse :: findRunsAux [] rest

/-- The maximal readable runs of a decoded buffer (source line 145). -/
def findRuns (l : List Nat) : List (List Nat) := findRunsAux [] l

/-- Model of Python `str.isalnum` restricted to ASCII; the fallback only
ever applies it to characters drawn from `[\x20-\x7E\n\r\t]`, where this is
exact. -/
def pyAlnum (c : Nat) : Bool :=
  decide ((48 ≤ c ∧ c ≤ 57) ∨ (65 ≤ c ∧ c ≤ 90) ∨ (97 ≤ c ∧ c ≤ 122))

/-- Model of the Python `str.isalpha` character test restricted to ASCII
letters (exact on the fallback's readable runs). -/
def pyAlpha (c : Nat) : Bool := decide ((65 ≤ c ∧ c ≤ 90) ∨ (97 ≤ c ∧ c ≤ 122))

/-- The `text_chars` class of source line 154: alphanumeric or one of
` .,!?:;'-`. -/
def isTextChar (c : Nat) : Bool :=
  pyAlnum c || decide (c = 32 ∨ c = 46 ∨ c = 44 ∨ c = 33 ∨ c = 63 ∨ c = 58 ∨ c = 59 ∨ c = 39 ∨ c = 45)

/-- The base64-ish character class of the regex on source line 171:
`[A-Za-z0-9+/=_\-]`. -/
def isB64Char (c : Nat) : Bool :=
  pyAlnum c || decide (c = 43 ∨ c = 47 ∨ c = 61 ∨ c = 95 ∨ c = 45)

/-- Garbage classification of a stripped run (source lines 154-178).  The
float ratios are embedded as cross-multiplied integer comparisons:
`tc / n < 0.6` as `5 * tc < 3 * n`, `< 0.75` as `4 * tc < 3 * n`, and
`< 0.7` as `10 * ac < 7 * n`. -/
def isGarbageRun (part : List Nat) : Bool :=
  let n := part.length
  let tc := (part.filter isTextChar).length
  let g1 :=
    if n < 10 then
      let ac := (part.filter (fun c => pyAlnum c || c == 32)).length
      if 10 * ac < 7 * n then true
      else decide (¬(32 ∈ part)) && decide (n < 8) &&
        !(decide (part ≠ []) && part.all pyAlpha)
    else false
  let g2 :=
    if 5 * tc < 3 * n then true
    else if n < 15 ∧ 4 * tc < 3 * n then true
    else if n ≥ 10 ∧ part.all isB64Char ∧ ¬(32 ∈ part) then true
    else if 9 ∈ part ∧ n < 30 then true
    else if n < 20 ∧ (part.getLastD 0 = 104 ∨ part.getLastD 0 = 40) then true
    else
      decide (part.headD 0 = 33 ∨ part.headD 0 = 43 ∨ part.headD 0 = 44 ∨
        part.headD 0 = 60 ∨ part.headD 0 = 62 ∨ part.headD 0 = 123 ∨
        part.headD 0 = 125 ∨ part.headD 0 = 91 ∨ part.headD 0 = 93) &&
      decide (n < 15)
  g1 || g2

/-- The drop test `re.match(r"^[A-Za-z]{1,2}$", part)` of source line 186:
the run is exactly one or two ASCII letters. -/
def isShortAlpha (part : List Nat) : Bool :=
  decide (part.length = 1 ∨ part.length = 2) && part.all pyAlpha

/-- The fallback's filtering loop over the readable runs (source lines
148-187), threading the garbage-streak counter: runs whose stripped form has
length at most 3 are skipped outright; a garbage run increments the streak
and, once the streak reaches 3, processing stops; a content run resets the
streak and is kept unless it is one or two bare letters. -/
def scanParts : Nat → List (List Nat) → List (List Nat)
  | _, [] => []
  | streak, p :: rest =>
    let part := pyStrip p
    if part.length ≤ 3 then scanParts streak rest
    else if isGarbageRun part then
      if streak + 1 ≥ 3 then [] else scanParts (streak + 1) rest
    else if isShortAlpha part then scanParts 0 rest
    else part :: scanParts 0 rest

/-- First-occurrence deduplication of the kept runs (source lines 190-195),
threading the `seen` set as a list. -/
def dedupeAux : List (List Nat) → List (List Nat) → List (List Nat)
  | _, [] => []
  | seen, p :: rest =>
    if p ∈ seen then dedupeAux seen rest
    else p :: dedupeAux (p :: seen) rest

/-- `"\n".join` over the surviving runs. -/
def joinLines : List (List Nat) → List Nat
  | [] => []
  | [x] => x
  | x :: y :: rest => x ++ 10 :: joinLines (y :: rest)

/-- Body of the fallback extractor on an already-decompressed buffer
(source lines 144-198): permissively decode, split into readable runs,
filter with the garbage heuristic, deduplicate and join; if nothing
survives, return the whole decoded buffer stripped. -/
def fallbackCore (data : List Nat) : List Nat :=
  let decoded := utf8DecodeIgnore data
  let cleaned := scanParts 0 (findRuns decoded)
  if cleaned ≠ [] then joinLines (dedupeAux [] cleaned) else pyStrip decoded

/-- The opening text of the exception message on source line 200,
`"[Could not decode: "`. -/
def errHead : List Nat :=
  [91, 67, 111, 117, 108, 100, 32, 110, 111, 116, 32, 100, 101, 99, 111,
   100, 101, 58, 32]

/-- The fallback extraction path of `decode_note_content` (source lines
140-200): decompress when gzip-framed, then run `fallbackCore`.  The only
statement in the `try` block that can raise is `gzip.decompress`; its
failure lands in the handler, which returns `"[Could not decode: {e}]"` —
the exception text is the abstract parameter `gzErr`. -/
def fallbackExtract (gunzip : List Nat → Option (List Nat))
    (gzErr : List Nat → List Nat) (data : List Nat) : List Nat :=
  if data.length ≥ 2 ∧ data.take 2 = [31, 139] then
    match gunzip data with
    | some d => fallbackCore d
    | none => errHead ++ gzErr data ++ [93]
  else fallbackCore data

/-- Model of `decode_note_content(data)` (source lines 126-200): absent data
passes through; otherwise the structured extraction is attempted first and
its stripped result is returned when the raw result is truthy (nonempty) and
its stripped length exceeds 10; otherwise the fallback extractor runs. -/
def decode_note_content (gunzip : List Nat → Option (List Nat))
    (gzErr : List Nat → List Nat) : Option (List Nat) → Option (List Nat)
  | none => none
  | some data =>
    match extract_text_from_protobuf gunzip (some data) with
    | some t =>
      if t ≠ [] ∧ (pyStrip t).length > 10 then some (pyStrip t)
      else some (fallbackExtract gunzip gzErr data)
    | none => some (fallbackExtract gunzip gzErr data)

/-- Model of `text.split("\n")`: split at every newline; the result always
has one more element than the number of newlines, and is never empty. -/
def splitLines : List Nat → List (List Nat)
  | [] => [[]]
  | c :: rest =>
    if c = 10 then [] :: splitLines rest
    else
      match splitLines rest with
      | [] => [[c]]
      | l :: ls => (c :: l) :: ls

/-- Leading-whitespace count of a line, translating
`len(line) - len(line.lstrip())` (source line 229).  Python `lstrip` strips
every whitespace character, tabs included. -/
def leadingWs (line : List Nat) : Nat := (line.takeWhile pyIsSpaceB).length

/-- Indent level of a line (source line 230):
`leading_spaces // 4 if leading_spaces > 0 else (1 if line.startswith("\t") else 0)`. -/
def indentLevel (line : List Nat) : Nat :=
  if leadingWs line > 0 then leadingWs line / 4
  else if line.headD 0 = 9 then 1 else 0

/-- `"  " * indent_level`. -/
def indentStr (lvl : Nat) : List Nat := List.replicate (2 * lvl) 32

/-- The `[\t ]*` prefix of the line regexes. -/
def dropTabSpace (l : List Nat) : List Nat :=
  l.dropWhile (fun c => c == 9 || c == 32)

/-- The `\s*(.+)$` tail of the line regexes, matched against the remainder
of a line: the greedy whitespace run backtracks just enough to leave a
nonempty content group.  Lines here never contain a newline (they come from
`splitLines`), so the `.` class is unrestricted. -/
def dotPlus (rest : List Nat) : Option (List Nat) :=
  if rest = [] then none
  else
    let r := rest.dropWhile pyIsSpaceB
    if r = [] then some [rest.getLastD 0] else some r

/-- The bullet glyph class `[•\-\*○▪▸►◦‣⁃]` of source line 233. -/
def isBulletGlyph (c : Nat) : Bool :=
  decide (c = 8226 ∨ c = 45 ∨ c = 42 ∨ c = 9675 ∨ c = 9642 ∨ c = 9656 ∨
    c = 9658 ∨ c = 9702 ∨ c = 8227 ∨ c = 8259)

/-- Match of `^[\t ]*([•\-\*○▪▸►◦‣⁃])\s*(.+)$` (source line 233), returning
the content group. -/
def bulletMatch (line : List Nat) : Option (List Nat) :=
  match dropTabSpace line with
  | c :: rest => if isBulletGlyph c then dotPlus rest else none
  | [] => none

/-- Digit test for the `\d+` group. -/
def isDigitCp (c : Nat) : Bool := decide (48 ≤ c ∧ c ≤ 57)

/-- Match of `^[\t ]*(\d+)[.\)]\s*(.+)$` (source line 242), returning the
digit group and the content group. -/
def numberMatch (line : List Nat) : Option (List Nat × List Nat) :=
  let r := dropTabSpace line
  let ds := r.takeWhile isDigitCp
  if ds = [] then none
  else
    match r.drop ds.length with
    | c :: rest =>
      if c = 46 ∨ c = 41 then (dotPlus rest).map (fun t => (ds, t)) else none
    | [] => none

/-- Match of `^[\t ]*([a-zA-Z])[.\)]\s*(.+)$` (source line 251), returning
the content group. -/
def letterMatch (line : List Nat) : Option (List Nat) :=
  match dropTabSpace line with
  | c :: c2 :: rest =>
    if pyAlpha c then
      if c2 = 46 ∨ c2 = 41 then dotPlus rest else none
    else none
  | _ => none

/-- Match of `^[\t ]*\[([xX ])\]\s*(.+)$` (source line 260), returning the
checkbox character and the content group. -/
def checkboxMatch (line : List Nat) : Option (Nat × List Nat) :=
  match dropTabSpace line with
  | 91 :: c :: 93 :: rest =>
    if c = 120 ∨ c = 88 ∨ c = 32 then (dotPlus rest).map (fun t => (c, t))
    else none
  | _ => none

/-- The header-promotion guard of source lines 270-275 except the
`prev_was_blank` and `i > 0` parts: the stripped line is short, ends in no
sentence punctuation, starts with no link marker, and starts with an ASCII
uppercase letter (`re.match(r"^[A-Z]", stripped)`). -/
def headerShape (stripped : List Nat) : Bool :=
  decide (stripped.length < 60) &&
  !(decide (stripped.getLastD 0 = 44 ∨ stripped.getLastD 0 = 46 ∨
      stripped.getLastD 0 = 58 ∨ stripped.getLastD 0 = 59 ∨
      stripped.getLastD 0 = 63 ∨ stripped.getLastD 0 = 33)) &&
  !(([104, 116, 116, 112].isPrefixOf stripped) ||
    ([119, 119, 119].isPrefixOf stripped) ||
    ([64].isPrefixOf stripped) || ([35].isPrefixOf stripped)) &&
  decide (65 ≤ stripped.headD 0 ∧ stripped.headD 0 ≤ 90)

/-- The checkbox, header-promotion and default branches of the per-line
dispatch (source lines 260-287), reached when no bullet, numbered or
(length-qualified) lettered match fired.  `next` is the already-stripped
following line (empty for the last line). -/
def lateBranches (prevBlank : Bool) (i : Nat) (line next stripped : List Nat)
    (lvl : Nat) : List Nat :=
  match checkboxMatch line with
  | some cc =>
    indentStr lvl ++ [45, 32] ++
      (if cc.1 = 120 ∨ cc.1 = 88 then [91, 120, 93] else [91, 32, 93]) ++
      [32] ++ cc.2
  | none =>
    if prevBlank ∧ headerShape stripped ∧ 0 < i ∧
        (next = [] ∨ stripped.length < next.length) then
      [35, 35, 32] ++ stripped
    else if lvl > 0 then indentStr lvl ++ stripped
    else stripped

/-- The per-line dispatch of `format_as_markdown` (source lines 219-289):
blank lines emit an empty line; otherwise the bullet, numbered-list,
lettered-list (only when the stripped length exceeds 3), checkbox, header
and default branches apply in priority order, each emitting exactly one
line. -/
def formatLine (prevBlank : Bool) (i : Nat) (line next : List Nat) :
    List Nat :=
  let stripped := pyStrip line
  if stripped = [] then []
  else
    let lvl := indentLevel line
    match bulletMatch line with
    | some content => indentStr lvl ++ [45, 32] ++ content
    | none =>
      match numberMatch line with
      | some nc => indentStr lvl ++ nc.1 ++ [46, 32] ++ nc.2
      | none =>
        match letterMatch line with
        | some content =>
          if 3 < stripped.length then indentStr lvl ++ [45, 32] ++ content
          else lateBranches prevBlank i line next stripped lvl
        | none => lateBranches prevBlank i line next stripped lvl

/-- The line loop of `format_as_markdown`: each line is looked at once, with
the `prev_was_blank` flag threaded through (a blank line sets it, every
other branch clears it) and the following line passed in stripped form for
the header heuristic. -/
def processLines : Bool → Nat → List (List Nat) → List (List Nat)
  | _, _, [] => []
  | pb, i, line :: rest =>
    formatLine pb i line (pyStrip (rest.headD [])) ::
      processLines (pyStrip line).isEmpty (i + 1) rest

/-- The whole-text pipeline of `format_as_markdown` on a (truthy) string:
split into lines, process each, join with newlines. -/
def format_core (t : List Nat) : List Nat :=
  joinLines (processLines true 0 (splitLines t))

/-- Model of `format_as_markdown(text)` (source lines 203-291): falsy input
(absent or the empty string) passes through unchanged. -/
def format_as_markdown : Option (List Nat) → Option (List Nat)
  | none => none
  | some t => if t = [] then some t else some (format_core t)

/-- Crafted buffer for the innermost-acceptance analysis: an outer
length-delimited field 2 of 117 bytes (padded by a field-1 blob), holding a
length-delimited field 3 of 53 bytes (padded by a field-1 blob), holding a
length-delimited field 2 whose payload is the two bytes `"a\n"`. -/
def c1buf : List Nat :=
  [18, 117] ++ ([10, 60] ++ List.replicate 60 0 ++ [26, 53] ++
    ([10, 47] ++ List.replicate 47 0 ++ [18, 2, 97, 10]))

/-- The eleven-code-point string `"abcdefghij\n"`. -/
def c3text : List Nat := [97, 98, 99, 100, 101, 102, 103, 104, 105, 106, 10]

/-- Crafted buffer whose structured extraction yields `"abcdefghij\n"`: the
same nesting shape as `c1buf` with a 126-byte outer payload and a 62-byte
inner payload. -/
def c3buf : List Nat :=
  [18, 126] ++ ([10, 60] ++ List.replicate 60 0 ++ [26, 62] ++
    ([10, 47] ++ List.replicate 47 0 ++ [18, 11] ++ c3text))

theorem land128_of_lt (n : Nat) (h : n < 128) : n &&& 128 = 0 := by
  have h7 : n.testBit 7 = false :=
    Nat.testBit_eq_false_of_lt (by norm_num; omega)
  have h2 := Nat.and_two_pow n 7
  rw [h7] at h2
  simpa using h2

theorem land127_of_lt (n : Nat) (h : n < 128) : n &&& 127 = n := by
  have h2 := Nat.and_pow_two_sub_one_eq_mod n 7
  norm_num at h2
  rw [h2]
  exact Nat.mod_eq_of_lt h

theorem read_varint_single (d : List Nat) (p : Nat) (hp : p < d.length)
    (hb : d.getD p 0 &&& 128 = 0) :
    read_varint d p = (d.getD p 0 &&& 127, p + 1) := by
  unfold read_varint
  obtain ⟨f, hf⟩ : ∃ f, d.length - p = f + 1 := ⟨d.length - p - 1, by omega⟩
  have hb2 : d[p] &&& 128 = 0 := by rwa [List.getD_eq_getElem d 0 hp] at hb
  rw [hf]
  simp [readVarintAux, hp, hb2, Nat.shiftLeft_zero]
theorem readVarintAux_le (d : List Nat) :
    ∀ fuel pos r s, pos ≤ (readVarintAux d fuel pos r s).2 := by
  intro fuel
  induction fuel with
  | zero => intro pos r s; simp [readVarintAux]
  | succ f ih =>
    intro pos r s
    simp only [readVarintAux]
    split
    · split
      · simp
      · exact le_trans (by omega) (ih (pos + 1) _ _)
    · simp

theorem readVarintAux_le_length (d : List Nat) :
    ∀ fuel pos r s, pos ≤ d.length →
      (readVarintAux d fuel pos r s).2 ≤ d.length := by
  intro fuel
  induction fuel with
  | zero => intro pos r s h; simpa [readVarintAux] using h
  | succ f ih =>
    intro pos r s h
    simp only [readVarintAux]
    split
    · split
      · simpa using (by omega : pos + 1 ≤ d.length)
      · exact ih (pos + 1) _ _ (by omega)
    · simpa using h

theorem read_varint_le (d : List Nat) (p : Nat) : p ≤ (read_varint d p).2 :=
  readVarintAux_le d _ p 0 0

theorem read_varint_lt (d : List Nat) (p : Nat) (h : p < d.length) :
    p < (read_varint d p).2 := by
  unfold read_varint
  obtain ⟨f, hf⟩ : ∃ f, d.length - p = f + 1 := ⟨d.length - p - 1, by omega⟩
  rw [hf]
  simp only [readVarintAux]
  rw [if_pos h]
  split
  · simp
  · exact lt_of_lt_of_le (by omega) (readVarintAux_le d f (p + 1) _ _)

theorem read_varint_le_length (d : List Nat) (p : Nat) (h : p ≤ d.length) :
    (read_varint d p).2 ≤ d.length :=
  readVarintAux_le_length d _ p 0 0 h
theorem scanOuterAux_exit (d : List Nat) (fuel pos : Nat)
    (h : d.length ≤ pos) : scanOuterAux d fuel pos = none := by
  cases fuel with
  | zero => rfl
  | succ f => simp [scanOuterAux, Nat.not_lt.mpr h]

theorem scanOuterAux_fuel (d : List Nat) :
    ∀ f1 f2 pos, d.length - pos ≤ f1 → d.length - pos ≤ f2 →
      scanOuterAux d f1 pos = scanOuterAux d f2 pos := by
  intro f1
  induction f1 with
  | zero =>
    intro f2 pos h1 _
    rw [scanOuterAux_exit d 0 pos (by omega), scanOuterAux_exit d f2 pos (by omega)]
  | succ a ih =>
    intro f2 pos h1 h2
    by_cases hpos : pos < d.length
    · obtain ⟨b, hb⟩ : ∃ b, f2 = b + 1 := ⟨f2 - 1, by omega⟩
      subst hb
      have hadv1 : pos < (read_varint d pos).2 := read_varint_lt d pos hpos
      have hadv2 : (read_varint d pos).2 ≤ (read_varint d (read_varint d pos).2).2 :=
        read_varint_le d _
      simp only [scanOuterAux, if_pos hpos]
      have hrec0 : scanOuterAux d a (read_varint d (read_varint d pos).2).2 =
          scanOuterAux d b (read_varint d (read_varint d pos).2).2 :=
        ih b _ (by omega) (by omega)
      have hrec2 : scanOuterAux d a
            ((read_varint d (read_varint d pos).2).2 + (read_varint d (read_varint d pos).2).1) =
          scanOuterAux d b
            ((read_varint d (read_varint d pos).2).2 + (read_varint d (read_varint d pos).2).1) :=
        ih b _ (by omega) (by omega)
      have hrec5 : scanOuterAux d a ((read_varint d pos).2 + 4) =
          scanOuterAux d b ((read_varint d pos).2 + 4) :=
        ih b _ (by omega) (by omega)
      have hrec8 : scanOuterAux d a ((read_varint d pos).2 + 8) =
          scanOuterAux d b ((read_varint d pos).2 + 8) :=
        ih b _ (by omega) (by omega)
      rw [hrec0, hrec2, hrec5, hrec8]
    · rw [scanOuterAux_exit d _ pos (by omega), scanOuterAux_exit d _ pos (by omega)]

/-- Claim C10 -/
theorem c10_falsy_passthrough :
    format_as_markdown (some []) = some [] ∧ format_as_markdown none = none :=
  ⟨rfl, rfl⟩

/-- Claim C2 counterexample -/
theorem c2_counterexample :
    ([9, 72] : List Nat).headD 0 = 9 ∧ indentLevel [9, 72] ≠ 1 ∧
    (([32, 32, 32, 9, 88] : List Nat).takeWhile (fun c => c == 32)).length / 4
      = 0 ∧
    indentLevel [32, 32, 32, 9, 88] ≠ 0 := by decide

/-- Claim C2 amended -/
theorem c2_indent_is_whitespace_div_four (line : List Nat) :
    indentLevel line = leadingWs line / 4 := by
  unfold indentLevel
  split
  · rfl
  · rename_i h
    have h0 : leadingWs line = 0 := by omega
    rw [h0]
    have : ¬line.headD 0 = 9 := by
      intro h9
      cases line with
      | nil => simp at h9
      | cons c rest =>
        simp at h9
        have hsp : pyIsSpaceB c = true := by subst h9; decide
        unfold leadingWs at h0
        rw [List.takeWhile_cons_of_pos hsp] at h0
        simp at h0
    rw [if_neg this]

/-- Claim C9 -/
theorem c9_gzip_transparent (gunzip : List Nat → Option (List Nat))
    (comp payload : List Nat) (h1 : comp.length ≥ 2)
    (h2 : comp.take 2 = [31, 139]) (h3 : gunzip comp = some payload)
    (h4 : ¬(payload.length ≥ 2 ∧ payload.take 2 = [31, 139])) :
    extract_text_from_protobuf gunzip (some comp) =
      extract_text_from_protobuf gunzip (some payload) := by
  simp only [extract_text_from_protobuf]
  rw [if_pos ⟨h1, h2⟩, h3, if_neg h4]

/-- Claim C9 witness -/
theorem c9_gzip_transparent_witness :
    extract_text_from_protobuf
        (fun l => if l = [31, 139] then some [0] else none) (some [31, 139]) =
      extract_text_from_protobuf
        (fun l => if l = [31, 139] then some [0] else none) (some [0]) :=
  c9_gzip_transparent _ [31, 139] [0] (by decide) (by decide) (by decide)
    (by decide)

/-- Claim C6 -/
theorem c6_total_never_throws (gunzip : List Nat → Option (List Nat)) :
    extract_text_from_protobuf gunzip none = none ∧
    (∀ b : List Nat, b.length ≥ 2 → b.take 2 = [31, 139] → gunzip b = none →
      extract_text_from_protobuf gunzip (some b) = none) ∧
    (∀ b : List Nat, extract_text_from_protobuf gunzip (some b) = none ∨
      ∃ s, extract_text_from_protobuf gunzip (some b) = some s) := by
  refine ⟨rfl, ?_, ?_⟩
  · intro b h1 h2 h3
    simp only [extract_text_from_protobuf]
    rw [if_pos ⟨h1, h2⟩, h3]
  · intro b
    cases h : extract_text_from_protobuf gunzip (some b) with
    | none => exact Or.inl rfl
    | some s => exact Or.inr ⟨s, rfl⟩

/-- Claim C6 witness -/
theorem c6_total_never_throws_witness :
    extract_text_from_protobuf (fun _ => none) (some [31, 139]) = none :=
  (c6_total_never_throws (fun _ => none)).2.1 [31, 139] (by decide) (by decide)
    rfl

/-- Claim C7 -/
theorem c7_garbage_streak (s : Nat) (p : List Nat) (rest : List (List Nat)) :
    (3 < (pyStrip p).length → isGarbageRun (pyStrip p) = true → 2 ≤ s →
      scanParts s (p :: rest) = []) ∧
    (3 < (pyStrip p).length → isGarbageRun (pyStrip p) = true → s < 2 →
      scanParts s (p :: rest) = scanParts (s + 1) rest) ∧
    (3 < (pyStrip p).length → isGarbageRun (pyStrip p) = false →
      scanParts s (p :: rest) =
        (if isShortAlpha (pyStrip p) then [] else [pyStrip p]) ++
          scanParts 0 rest) := by
  refine ⟨?_, ?_, ?_⟩
  · intro h1 h2 h3
    simp only [scanParts]
    rw [if_neg (by omega), if_pos h2, if_pos (by omega)]
  · intro h1 h2 h3
    simp only [scanParts]
    rw [if_neg (by omega), if_pos h2, if_neg (by omega)]
  · intro h1 h2
    simp only [scanParts]
    rw [if_neg (by omega), if_neg (by simp [h2])]
    split
    · simp
    · simp

/-- Claim C7 witness -/
theorem c7_garbage_streak_witness :
    scanParts 2
      [[33, 33, 33, 33],
       [72, 101, 108, 108, 111, 32, 119, 111, 114, 108, 100]] = [] :=
  (c7_garbage_streak 2 [33, 33, 33, 33]
    [[72, 101, 108, 108, 111, 32, 119, 111, 114, 108, 100]]).1 (by decide)
    (by decide) (by decide)

set_option maxRecDepth 40000 in
/-- Claim C1 counterexample -/
theorem c1_counterexample :
    extract_text_from_protobuf (fun _ => none) (some c1buf) = some [97, 10] ∧
    ¬(10 < ([97, 10] : List Nat).length) := by
  exact ⟨by decide, by decide⟩

set_option maxRecDepth 40000 in
/-- Claim C3 counterexample -/
theorem c3_counterexample :
    extract_text_from_protobuf (fun _ => none) (some c3buf) = some c3text ∧
    10 ≤ (c3text.filter (fun c => !pyIsSpaceB c)).length ∧
    decode_note_content (fun _ => none) (fun _ => []) (some c3buf) ≠
      some c3text := by
  exact ⟨by decide, by decide, by decide⟩

/-- Claim C4 counterexample -/
theorem c4_counterexample :
    scanParts 0 (findRuns (utf8DecodeIgnore [31, 139])) = [] ∧
    fallbackExtract (fun _ => none) (fun _ => []) [31, 139] ≠
      pyStrip (utf8DecodeIgnore [31, 139]) := by
  exact ⟨by decide, by decide⟩

/-- Claim C4 amended -/
theorem c4_fallback_total (gunzip : List Nat → Option (List Nat))
    (gzErr : List Nat → List Nat) (data : List Nat) :
    (¬(data.length ≥ 2 ∧ data.take 2 = [31, 139]) →
      scanParts 0 (findRuns (utf8DecodeIgnore data)) = [] →
      fallbackExtract gunzip gzErr data = pyStrip (utf8DecodeIgnore data)) ∧
    (∀ d, data.length ≥ 2 → data.take 2 = [31, 139] → gunzip data = some d →
      scanParts 0 (findRuns (utf8DecodeIgnore d)) = [] →
      fallbackExtract gunzip gzErr data = pyStrip (utf8DecodeIgnore d)) ∧
    (data.length ≥ 2 → data.take 2 = [31, 139] → gunzip data = none →
      fallbackExtract gunzip gzErr data = errHead ++ gzErr data ++ [93]) := by
  refine ⟨?_, ?_, ?_⟩
  · intro hmagic hclean
    simp only [fallbackExtract]
    rw [if_neg hmagic]
    simp only [fallbackCore]
    rw [hclean]
    simp
  · intro d h1 h2 h3 hclean
    simp only [fallbackExtract]
    rw [if_pos ⟨h1, h2⟩, h3]
    simp only [fallbackCore]
    rw [hclean]
    simp
  · intro h1 h2 h3
    simp only [fallbackExtract]
    rw [if_pos ⟨h1, h2⟩, h3]

/-- Claim C4 witness -/
theorem c4_fallback_total_witness :
    fallbackExtract (fun _ => none) (fun _ => []) [0] =
      pyStrip (utf8DecodeIgnore [0]) :=
  (c4_fallback_total (fun _ => none) (fun _ => []) [0]).1 (by decide)
    (by decide)

/-- Claim C3 amended -/
theorem c3_dispatch (gunzip : List Nat → Option (List Nat))
    (gzErr : List Nat → List Nat) (data : List Nat) :
    (∀ t, extract_text_from_protobuf gunzip (some data) = some t →
      ((pyStrip t).length > 10 →
        decode_note_content gunzip gzErr (some data) = some (pyStrip t)) ∧
      ((pyStrip t).length ≤ 10 →
        decode_note_content gunzip gzErr (some data) =
          some (fallbackExtract gunzip gzErr data))) ∧
    (extract_text_from_protobuf gunzip (some data) = none →
      decode_note_content gunzip gzErr (some data) =
        some (fallbackExtract gunzip gzErr data)) := by
  constructor
  · intro t ht
    constructor
    · intro hlen
      have htne : t ≠ [] := by
        intro he
        rw [he] at hlen
        simp [pyStrip] at hlen
      simp [decode_note_content, ht, htne, hlen]
    · intro hlen
      have hno : ¬(t ≠ [] ∧ (pyStrip t).length > 10) := by
        intro hc
        omega
      simp [decode_note_content, ht, hno]
  · intro ht
    simp [decode_note_content, ht]

set_option maxRecDepth 40000 in
/-- Claim C3 amended witness -/
theorem c3_dispatch_witness :
    decode_note_content (fun _ => none) (fun _ => []) (some c3buf) =
      some (fallbackExtract (fun _ => none) (fun _ => []) c3buf) :=
  ((c3_dispatch (fun _ => none) (fun _ => []) c3buf).1 c3text
    (by decide)).2 (by decide)

/-- Claim C8 -/
theorem c8_loops_advance :
    (∀ (data : List Nat) (pos : Nat), pos ≤ (read_varint data pos).2 ∧
      (pos < data.length → pos < (read_varint data pos).2 ∧
        (read_varint data pos).2 ≤ data.length)) ∧
    (∀ (data : List Nat) (f pos : Nat), data.length - pos ≤ f →
      scanOuterAux data f pos = scanOuter data pos) := by
  constructor
  · intro data pos
    exact ⟨read_varint_le data pos, fun h =>
      ⟨read_varint_lt data pos h, read_varint_le_length data pos (by omega)⟩⟩
  · intro data f pos hf
    exact scanOuterAux_fuel data f (data.length - pos) pos hf le_rfl

/-- Claim C8 witness -/
theorem c8_loops_advance_witness :
    (0 < (read_varint [18, 0] 0).2 ∧ (read_varint [18, 0] 0).2 ≤ 2) ∧
    scanOuterAux [18, 0] 5 0 = scanOuter [18, 0] 0 := by
  constructor
  · have h := (c8_loops_advance.1 [18, 0] 0).2 (by decide)
    simpa using h
  · exact c8_loops_advance.2 [18, 0] 5 0 (by decide)
theorem scanTextBlockAux_exit (d : List Nat) (fuel pos : Nat)
    (h : d.length ≤ pos) : scanTextBlockAux d fuel pos = none := by
  cases fuel with
  | zero => rfl
  | succ f => simp [scanTextBlockAux, Nat.not_lt.mpr h]

theorem scanTextBlockAux_step (d : List Nat) (f pos : Nat)
    (h : pos < d.length) :
    scanTextBlockAux d (f + 1) pos =
      (if (read_varint d pos).1 &&& 7 = 0 then
        scanTextBlockAux d f (read_varint d (read_varint d pos).2).2
      else if (read_varint d pos).1 &&& 7 = 2 then
        (if (read_varint d pos).1 >>> 3 = 2 then
          match utf8Decode ((d.drop (read_varint d (read_varint d pos).2).2).take
              (read_varint d (read_varint d pos).2).1) with
          | some s => if acceptText s then some s
            else scanTextBlockAux d f
              ((read_varint d (read_varint d pos).2).2 +
                (read_varint d (read_varint d pos).2).1)
          | none => scanTextBlockAux d f
              ((read_varint d (read_varint d pos).2).2 +
                (read_varint d (read_varint d pos).2).1)
        else scanTextBlockAux d f
          ((read_varint d (read_varint d pos).2).2 +
            (read_varint d (read_varint d pos).2).1))
      else none) := by
  simp only [scanTextBlockAux, if_pos h]

/-- Claim C1 amended -/
theorem c1_accept (tv : List Nat) (h : tv.length < 128) :
    scanTextBlock (18 :: tv.length :: tv) 0 =
      match utf8Decode tv with
      | some d => if acceptText d then some d else none
      | none => none := by
  have hrv0 : read_varint (18 :: tv.length :: tv) 0 = (18, 1) := by
    have h18 : (18 :: tv.length :: tv).getD 0 0 = 18 := by simp
    have hs := read_varint_single (18 :: tv.length :: tv) 0 (by simp)
      (by rw [h18]; decide)
    rw [h18] at hs
    simpa using hs
  have hg1 : (18 :: tv.length :: tv).getD 1 0 = tv.length := by simp
  have hrv1 : read_varint (18 :: tv.length :: tv) 1 = (tv.length, 2) := by
    have hs := read_varint_single (18 :: tv.length :: tv) 1
      (by simp) (by rw [hg1]; exact land128_of_lt _ h)
    rw [hg1, land127_of_lt _ h] at hs
    exact hs
  unfold scanTextBlock
  have hlen : (18 :: tv.length :: tv).length - 0 = tv.length + 1 + 1 := by
    simp
  rw [hlen]
  rw [scanTextBlockAux_step _ _ _ (by simp)]
  rw [hrv0]
  simp only [show ((18, 1) : Nat × Nat).1 = 18 from rfl,
    show ((18, 1) : Nat × Nat).2 = 1 from rfl]
  rw [hrv1]
  simp only [show ((tv.length, 2) : Nat × Nat).1 = tv.length from rfl,
    show ((tv.length, 2) : Nat × Nat).2 = 2 from rfl,
    show (18 : Nat) &&& 7 = 2 by decide, show (18 : Nat) >>> 3 = 2 by decide]
  norm_num
  cases hdec : utf8Decode tv with
  | none =>
    simp only [hdec]
    exact scanTextBlockAux_exit _ _ _ (by simp; omega)
  | some d =>
    simp only [hdec]
    split
    · rfl
    · exact scanTextBlockAux_exit _ _ _ (by simp; omega)

/-- Claim C1 amended witness -/
theorem c1_accept_witness :
    scanTextBlock
      (18 ::
        ([72, 101, 108, 108, 111, 32, 119, 111, 114, 108, 100, 33] :
          List Nat).length ::
        [72, 101, 108, 108, 111, 32, 119, 111, 114, 108, 100, 33]) 0 =
      some [72, 101, 108, 108, 111, 32, 119, 111, 114, 108, 100, 33] := by
  rw [c1_accept [72, 101, 108, 108, 111, 32, 119, 111, 114, 108, 100, 33]
    (by decide)]
  decide

theorem splitLines_ne_nil (t : List Nat) : splitLines t ≠ [] := by
  induction t with
  | nil => simp [splitLines]
  | cons c rest ih =>
    simp only [splitLines]
    split
    · simp
    · cases h : splitLines rest with
      | nil => simp
      | cons l ls => simp

theorem not_mem_of_mem_splitLines {t l : List Nat} (h : l ∈ splitLines t) :
    (10 : Nat) ∉ l := by
  induction t generalizing l with
  | nil =>
    simp [splitLines] at h
    subst h
    simp
  | cons c rest ih =>
    by_cases hc : c = 10
    · subst hc
      simp [splitLines] at h
      rcases h with h | h
      · subst h; simp
      · exact ih h
    · simp only [splitLines, if_neg hc] at h
      cases hs : splitLines rest with
      | nil => exact absurd hs (splitLines_ne_nil rest)
      | cons m ms =>
        rw [hs] at h
        simp at h
        rcases h with h | h
        · subst h
          intro hmem
          simp at hmem
          rcases hmem with h10 | h10
          · exact hc h10.symm
          · exact ih (hs ▸ List.mem_cons_self m ms) h10
        · exact ih (hs ▸ List.mem_cons_of_mem m h)

theorem splitLines_eq_self {x : List Nat} (h : (10 : Nat) ∉ x) :
    splitLines x = [x] := by
  induction x with
  | nil => rfl
  | cons c rest ih =>
    have hc : c ≠ 10 := by
      intro e
      exact h (by simp [e])
    have hr : (10 : Nat) ∉ rest := fun m => h (List.mem_cons_of_mem _ m)
    simp [splitLines, hc, ih hr]

theorem splitLines_append {x r : List Nat} (h : (10 : Nat) ∉ x) :
    splitLines (x ++ 10 :: r) = x :: splitLines r := by
  induction x with
  | nil => simp [splitLines]
  | cons c xs ih =>
    have hc : c ≠ 10 := by
      intro e
      exact h (by simp [e])
    have hxs : (10 : Nat) ∉ xs := fun m => h (List.mem_cons_of_mem _ m)
    simp only [List.cons_append, splitLines, if_neg hc, List.append_eq, ih hxs]

theorem splitLines_joinLines {ls : List (List Nat)} (hne : ls ≠ [])
    (hfree : ∀ l ∈ ls, (10 : Nat) ∉ l) : splitLines (joinLines ls) = ls := by
  induction ls with
  | nil => exact absurd rfl hne
  | cons x rest ih =>
    cases rest with
    | nil => simp [joinLines, splitLines_eq_self (hfree x (by simp))]
    | cons y rs =>
      rw [show joinLines (x :: y :: rs) = x ++ 10 :: joinLines (y :: rs)
        from rfl]
      rw [splitLines_append (hfree x (by simp))]
      rw [ih (by simp) (fun l hl => hfree l (List.mem_cons_of_mem _ hl))]

theorem processLines_length (pb : Bool) (i : Nat) (ls : List (List Nat)) :
    (processLines pb i ls).length = ls.length := by
  induction ls generalizing pb i with
  | nil => rfl
  | cons l rest ih => simp [processLines, ih]

theorem getLastD_mem {l : List Nat} {d : Nat} (h : l ≠ []) :
    l.getLastD d ∈ l := by
  cases l with
  | nil => exact absurd rfl h
  | cons a t => simp [List.getLastD_eq_getLast?, List.getLast?_eq_getLast]

theorem pyStrip_subset (l : List Nat) : pyStrip l ⊆ l := by
  intro a ha
  unfold pyStrip at ha
  rw [List.mem_reverse] at ha
  have h2 := (List.dropWhile_sublist pyIsSpaceB).subset ha
  rw [List.mem_reverse] at h2
  exact (List.dropWhile_sublist pyIsSpaceB).subset h2

theorem dropTabSpace_subset (l : List Nat) : dropTabSpace l ⊆ l :=
  fun _ ha => (List.dropWhile_sublist _).subset ha

theorem dotPlus_subset {rest content : List Nat}
    (h : dotPlus rest = some content) : content ⊆ rest := by
  unfold dotPlus at h
  split at h
  · simp at h
  · rename_i hne
    dsimp only at h
    split at h
    · injection h with h2
      subst h2
      intro a ha
      rw [List.mem_singleton] at ha
      subst ha
      exact getLastD_mem hne
    · injection h with h2
      subst h2
      intro a ha
      exact (List.dropWhile_sublist _).subset ha

theorem bulletMatch_subset {line content : List Nat}
    (h : bulletMatch line = some content) : content ⊆ line := by
  unfold bulletMatch at h
  cases hd : dropTabSpace line with
  | nil => rw [hd] at h; simp at h
  | cons c rest =>
    rw [hd] at h
    dsimp only at h
    split at h
    · intro a ha
      have h1 : a ∈ c :: rest := List.mem_cons_of_mem _ (dotPlus_subset h ha)
      exact dropTabSpace_subset line (hd ▸ h1)
    · simp at h

theorem numberMatch_subset {line : List Nat} {nc : List Nat × List Nat}
    (h : numberMatch line = some nc) : nc.1 ⊆ line ∧ nc.2 ⊆ line := by
  unfold numberMatch at h
  dsimp only at h
  split at h
  · simp at h
  · rename_i hds
    cases hd : (dropTabSpace line).drop
        ((dropTabSpace line).takeWhile isDigitCp).length with
    | nil => rw [hd] at h; simp at h
    | cons c rest =>
      rw [hd] at h
      dsimp only at h
      split at h
      · cases hdp : dotPlus rest with
        | none => rw [hdp] at h; simp at h
        | some content =>
          rw [hdp] at h
          simp at h
          constructor
          · intro a ha
            rw [← h] at ha
            exact dropTabSpace_subset line
              ((List.takeWhile_sublist _).subset ha)
          · intro a ha
            rw [← h] at ha
            have h1 : a ∈ rest := dotPlus_subset hdp ha
            have h2 : a ∈ c :: rest := List.mem_cons_of_mem _ h1
            rw [← hd] at h2
            exact dropTabSpace_subset line (List.drop_subset _ _ h2)
      · simp at h

theorem letterMatch_subset {line content : List Nat}
    (h : letterMatch line = some content) : content ⊆ line := by
  unfold letterMatch at h
  cases hd : dropTabSpace line with
  | nil => rw [hd] at h; simp at h
  | cons c rest0 =>
    cases rest0 with
    | nil => rw [hd] at h; simp at h
    | cons c2 rest =>
      rw [hd] at h
      dsimp only at h
      split at h
      · split at h
        · intro a ha
          have h1 : a ∈ c :: c2 :: rest :=
            List.mem_cons_of_mem _ (List.mem_cons_of_mem _
              (dotPlus_subset h ha))
          exact dropTabSpace_subset line (hd ▸ h1)
        · simp at h
      · simp at h

theorem checkboxMatch_subset {line : List Nat} {cc : Nat × List Nat}
    (h : checkboxMatch line = some cc) : cc.2 ⊆ line := by
  unfold checkboxMatch at h
  cases hd : dropTabSpace line with
  | nil => rw [hd] at h; simp at h
  | cons c1 rest0 =>
    rw [hd] at h
    cases rest0 with
    | nil => simp at h
    | cons c rest1 =>
      cases rest1 with
      | nil => simp at h
      | cons c3 rest =>
        by_cases h91 : c1 = 91
        · by_cases h93 : c3 = 93
          · subst h91; subst h93
            dsimp only at h
            split at h
            · cases hdp : dotPlus rest with
              | none => rw [hdp] at h; simp at h
              | some content =>
                rw [hdp] at h
                simp at h
                intro a ha
                rw [← h] at ha
                have h1 : a ∈ (91 : Nat) :: c :: 93 :: rest :=
                  List.mem_cons_of_mem _ (List.mem_cons_of_mem _
                    (List.mem_cons_of_mem _ (dotPlus_subset hdp ha)))
                exact dropTabSpace_subset line (hd ▸ h1)
            · simp at h
          · simp [h93] at h
        · simp [h91] at h

theorem not_mem_indentStr (lvl : Nat) : (10 : Nat) ∉ indentStr lvl := by
  simp [indentStr, List.mem_replicate]

theorem ten_not_mem_lateBranches {line next stripped : List Nat} (pb : Bool)
    (i lvl : Nat) (hline : (10 : Nat) ∉ line)
    (hstr : (10 : Nat) ∉ stripped) :
    (10 : Nat) ∉ lateBranches pb i line next stripped lvl := by
  cases hcm : checkboxMatch line with
  | some cc =>
    have hsub := checkboxMatch_subset hcm
    have hcb : (10 : Nat) ∉
        (if cc.1 = 120 ∨ cc.1 = 88 then [91, 120, 93] else [91, 32, 93]) := by
      split <;> decide
    simp only [lateBranches, hcm]
    intro hm
    simp [List.mem_append, indentStr, List.mem_replicate, hcb] at hm
    exact hline (hsub hm)
  | none =>
    simp only [lateBranches, hcm]
    split
    · intro hm
      simp [List.mem_append] at hm
      exact hstr hm
    · split
      · intro hm
        simp [List.mem_append, indentStr, List.mem_replicate] at hm
        exact hstr hm
      · exact hstr

theorem ten_not_mem_formatLine {line next : List Nat} (pb : Bool) (i : Nat)
    (h : (10 : Nat) ∉ line) : (10 : Nat) ∉ formatLine pb i line next := by
  have hstr : (10 : Nat) ∉ pyStrip line := fun m => h (pyStrip_subset line m)
  by_cases hs : pyStrip line = []
  · simp [formatLine, hs]
  · cases hb : bulletMatch line with
    | some content =>
      have hc := bulletMatch_subset hb
      simp only [formatLine, if_neg hs, hb]
      intro hm
      simp [List.mem_append, indentStr, List.mem_replicate] at hm
      exact h (hc hm)
    | none =>
      cases hn : numberMatch line with
      | some nc =>
        have hc := numberMatch_subset hn
        simp only [formatLine, if_neg hs, hb, hn]
        intro hm
        simp [List.mem_append, indentStr, List.mem_replicate] at hm
        rcases hm with hm | hm
        · exact h (hc.1 hm)
        · exact h (hc.2 hm)
      | none =>
        cases hl : letterMatch line with
        | some content =>
          simp only [formatLine, if_neg hs, hb, hn, hl]
          split
          · have hc := letterMatch_subset hl
            intro hm
            simp [List.mem_append, indentStr, List.mem_replicate] at hm
            exact h (hc hm)
          · exact ten_not_mem_lateBranches pb i _ h hstr
        | none =>
          simp only [formatLine, if_neg hs, hb, hn, hl]
          exact ten_not_mem_lateBranches pb i _ h hstr

theorem lateBranches_ne_nil {line next stripped : List Nat} (pb : Bool)
    (i lvl : Nat) (h : stripped ≠ []) :
    lateBranches pb i line next stripped lvl ≠ [] := by
  cases hcm : checkboxMatch line with
  | some cc => simp [lateBranches, hcm]
  | none =>
    simp only [lateBranches, hcm]
    split
    · simp
    · split
      · simp [h]
      · exact h

theorem formatLine_ne_nil {line next : List Nat} (pb : Bool) (i : Nat)
    (h : pyStrip line ≠ []) : formatLine pb i line next ≠ [] := by
  cases hb : bulletMatch line with
  | some content => simp [formatLine, if_neg h, hb]
  | none =>
    cases hn : numberMatch line with
    | some nc => simp [formatLine, if_neg h, hb, hn]
    | none =>
      cases hl : letterMatch line with
      | some content =>
        simp only [formatLine, if_neg h, hb, hn, hl]
        split
        · simp
        · exact lateBranches_ne_nil pb i _ h
      | none =>
        simp only [formatLine, if_neg h, hb, hn, hl]
        exact lateBranches_ne_nil pb i _ h

theorem processLines_getD_blank (ls : List (List Nat)) :
    ∀ pb i j, j < ls.length →
      ((pyStrip (ls.getD j [])).isEmpty = true ↔
        (processLines pb i ls).getD j [] = []) := by
  induction ls with
  | nil => intro pb i j hj; simp at hj
  | cons l rest ih =>
    intro pb i j hj
    cases j with
    | zero =>
      simp only [processLines, List.getD_cons_zero]
      constructor
      · intro he
        unfold formatLine
        rw [if_pos (List.isEmpty_iff.mp he)]
      · intro he
        rw [List.isEmpty_iff]
        by_contra hne
        exact formatLine_ne_nil pb i hne he
    | succ j =>
      simp only [processLines, List.getD_cons_succ]
      exact ih _ _ j (by simpa using hj)

theorem processLines_ten_free (ls : List (List Nat)) :
    ∀ pb i, (∀ l ∈ ls, (10 : Nat) ∉ l) →
      ∀ m ∈ processLines pb i ls, (10 : Nat) ∉ m := by
  induction ls with
  | nil => intro pb i hf m hm; simp [processLines] at hm
  | cons l rest ih =>
    intro pb i hf m hm
    simp only [processLines] at hm
    rcases List.mem_cons.mp hm with hm | hm
    · subst hm
      exact ten_not_mem_formatLine pb i (hf l (by simp))
    · exact ih _ _ (fun x hx => hf x (List.mem_cons_of_mem _ hx)) m hm

/-- Claim C5 -/
theorem c5_line_preservation (t : List Nat) :
    (splitLines (format_core t)).length = (splitLines t).length ∧
    ∀ j, j < (splitLines t).length →
      ((pyStrip ((splitLines t).getD j [])).isEmpty = true ↔
        (splitLines (format_core t)).getD j [] = []) := by
  have hkey : splitLines (format_core t) =
      processLines true 0 (splitLines t) := by
    unfold format_core
    apply splitLines_joinLines
    · intro hnil
      have hlen := processLines_length true 0 (splitLines t)
      rw [hnil] at hlen
      exact splitLines_ne_nil t (List.length_eq_zero.mp hlen.symm)
    · exact processLines_ten_free (splitLines t) true 0
        (fun l hl => not_mem_of_mem_splitLines hl)
  rw [hkey]
  exact ⟨processLines_length true 0 (splitLines t),
    fun j hj => processLines_getD_blank (splitLines t) true 0 j hj⟩

/-- Claim C5 witness -/
theorem c5_line_preservation_witness :
    (splitLines (format_core [97, 10, 10, 98])).length =
      (splitLines [97, 10, 10, 98]).length ∧
    ((pyStrip ((splitLines [97, 10, 10, 98]).getD 1 [])).isEmpty = true ↔
      (splitLines (format_core [97, 10, 10, 98])).getD 1 [] = []) :=
  ⟨(c5_line_preservation [97, 10, 10, 98]).1,
    (c5_line_preservation [97, 10, 10, 98]).2 1 (by decide)⟩
